import Mathlib

/-!
Verification of the data pipeline in `main.py` (Seoul commercial-district
quarterly sales dashboard).

The shallow embedding below translates the reusable core of `main.py`:

* `load_data` (lines 28-41): column renaming, numeric coercion with
  `pd.to_numeric(errors="coerce")` (a failing cell becomes missing), and
  string cleanup with `.astype(str).str.strip()` (a missing cell becomes the
  literal string "nan", then values are stripped of surrounding whitespace).
* the filter block (lines 116-126) producing `filtered_data`,
* the summary metrics `total_sales`, `total_cnt`, `n_areas`, `n_cats`
  (lines 155-158),
* the category ranking `top10` (lines 173-182) and `top5_overall`
  (lines 98-104), both instances of a generic `topCategories`.

Columns are identified structurally (one field per canonical column), which
models the declarative rename map `RENAME_MAP`: renaming raw headers to
canonical names is the identity on this representation.

Machine reals do not appear: the sales/transaction columns hold integer
amounts in the source data, so numeric cells are modelled as `Option Int`
(`none` is pandas `NaN`).  pandas sorting with `ascending=False` is
implemented (in `nargsort`) as an ascending argsort followed by reversing
the indexer; numpy's quicksort runs insertion sort on small arrays, so the
ascending pass is stable there.  The embedding fixes that determinization:
a stable ascending sort followed by `reverse`.
-/

/-! ### Python `str.strip` on character lists -/

/-- Remove trailing whitespace characters (the right half of Python
`str.strip`), written structurally so that idempotence is provable. -/
def rstripChars : List Char → List Char
  | [] => []
  | a :: t =>
    let r := rstripChars t
    if r.isEmpty && a.isWhitespace then [] else a :: r

/-- Python `s.strip()`: drop leading whitespace, then trailing whitespace. -/
def stripChars (l : List Char) : List Char :=
  rstripChars (l.dropWhile Char.isWhitespace)

/-- Model of `pandas.Series.str.strip` applied to one cell. -/
def pyStrip (s : String) : String :=
  ⟨stripChars s.data⟩

/-! ### Decimal integer codec (CSV cells for numeric columns)

`to_csv` writes a number as its decimal text and `pd.to_numeric` parses it
back; the codec below is the decimal text representation, written with
explicit fuel so every function is structurally recursive. -/

/-- Numeric value of a decimal digit character. -/
def digitVal (c : Char) : Nat := c.toNat - 48

/-- Parse a list of decimal digit characters, most significant first. -/
def natFromChars (cs : List Char) : Nat :=
  cs.foldl (fun a c => a * 10 + digitVal c) 0

/-- Decimal digit characters of `n`, most significant first (`fuel`-bounded
recursion; `fuel = n` is always enough). -/
def ntcAux : Nat → Nat → List Char
  | 0, _ => []
  | fuel + 1, n =>
    if n = 0 then [] else ntcAux fuel (n / 10) ++ [Nat.digitChar (n % 10)]

/-- Decimal text of a natural number. -/
def natToStr (n : Nat) : String :=
  if n = 0 then "0" else ⟨ntcAux n n⟩

/-- Decimal text of an integer (what `to_csv` writes for a numeric cell). -/
def intToStr (i : Int) : String :=
  if i < 0 then "-" ++ natToStr i.natAbs else natToStr i.toNat

/-- Model of `pd.to_numeric(cell, errors="coerce")` on one text cell: an
optional sign followed by decimal digits parses, anything else coerces to
missing. -/
def cellToInt (s : String) : Option Int :=
  match s.data with
  | [] => none
  | c :: cs =>
    if c = '-' then
      if !cs.isEmpty && cs.all Char.isDigit then
        some (-(natFromChars cs : Int))
      else none
    else if (c :: cs).all Char.isDigit then
      some ((natFromChars (c :: cs) : Nat) : Int)
    else none

/-! ### The normalizer `load_data` -/

/-- The missing-value tokens of `pandas.read_csv` (default `na_values`):
a cell equal to one of these reads as `NaN`. -/
def naStrings : List String :=
  ["", "#N/A", "#N/A N/A", "#NA", "-1.#IND", "-1.#QNAN", "-NaN", "-nan",
   "1.#IND", "1.#QNAN", "<NA>", "N/A", "NA", "NULL", "NaN", "None",
   "n/a", "nan", "null"]

/-- Model of `read_csv` on one text cell: missing-value tokens become
missing. -/
def readCell (s : String) : Option String :=
  if s ∈ naStrings then none else some s

/-- Model of `df[col].astype(str).str.strip()` on one cell: a missing cell
becomes the literal string "nan" (pandas renders `NaN` that way under
`astype(str)`), a present cell is stripped of surrounding whitespace. -/
def normStr : Option String → String
  | none => "nan"
  | some s => pyStrip s

/-- Model of `pd.to_numeric(col, errors="coerce")` on one cell of a text
column: missing stays missing, a present cell parses or coerces to
missing. -/
def parseNum (c : Option String) : Option Int :=
  c.bind cellToInt

/-- One row of the raw table as produced by `read_csv` (after the
`RENAME_MAP` renaming, which is the identity on this structural
representation).  Each cell is `none` when `read_csv` read it as `NaN`.
Canonical column names follow the data model:
`period_code` = 기준_년분기_코드, `district_type` = 상권유형,
`district_code` = 상권코드, `district_name` = 상권이름,
`category` = 업종, `quarterly_sales_amount` = 분기매출액,
`quarterly_transaction_count` = 분기거래건수. -/
structure RawRow where
  period_code : Option String
  district_type : Option String
  district_code : Option String
  district_name : Option String
  category : Option String
  quarterly_sales_amount : Option String
  quarterly_transaction_count : Option String
deriving Repr, DecidableEq

/-- One normalized record, the output of `load_data`.  The four identifying
columns are strings (never missing, by `astype(str)`); `district_code` is
untouched by `load_data` and keeps its raw optional value; the two numeric
columns are coerced. -/
structure Record where
  period_code : String
  district_type : String
  district_code : Option String
  district_name : String
  category : String
  quarterly_sales_amount : Option Int
  quarterly_transaction_count : Option Int
deriving Repr, DecidableEq

/-- The normalizer on one row: numeric coercion on the numeric columns,
string cleanup on the four identifying columns, pass-through elsewhere. -/
def loadRow (r : RawRow) : Record where
  period_code := normStr r.period_code
  district_type := normStr r.district_type
  district_code := r.district_code
  district_name := normStr r.district_name
  category := normStr r.category
  quarterly_sales_amount := parseNum r.quarterly_sales_amount
  quarterly_transaction_count := parseNum r.quarterly_transaction_count

/-- `load_data` (main.py lines 28-41): rename (structural identity), coerce,
clean.  No row is dropped, duplicated, or reordered. -/
def loadData (rows : List RawRow) : List Record :=
  rows.map loadRow

/-! ### The filter engine (main.py lines 116-126) -/

/-- The "all" sentinel offered in the quarter multiselect. -/
def q_all_label : String := "전체"

/-- The filter block producing `filtered_data`: the period filter runs only
when the selection is nonempty and lacks the sentinel; the district-type and
category filters run only when their selections are nonempty. -/
def filteredData (df : List Record) (selected_quarters selected_types selected_biz : List String) :
    List Record :=
  let d1 :=
    if selected_quarters.contains q_all_label then df
    else if selected_quarters.isEmpty then df
    else df.filter (fun r => selected_quarters.contains r.period_code)
  let d2 :=
    if selected_types.isEmpty then d1
    else d1.filter (fun r => selected_types.contains r.district_type)
  if selected_biz.isEmpty then d2
  else d2.filter (fun r => selected_biz.contains r.category)

/-! ### Summary metrics (main.py lines 155-158) -/

/-- Model of `float(filtered_data["분기매출액"].sum(skipna=True))`: the sum
of the present values (missing values are skipped). -/
def total_sales (records : List Record) : Int :=
  (records.filterMap Record.quarterly_sales_amount).sum

/-- Model of `float(filtered_data["분기거래건수"].sum(skipna=True))`. -/
def total_cnt (records : List Record) : Int :=
  (records.filterMap Record.quarterly_transaction_count).sum

/-- Model of `int(filtered_data["상권이름"].nunique(dropna=True))`: the
column holds strings after `load_data`, so this is the count of distinct
values. -/
def n_areas (records : List Record) : Nat :=
  ((records.map Record.district_name).dedup).length

/-- Model of `int(filtered_data["업종"].nunique(dropna=True))`. -/
def n_cats (records : List Record) : Nat :=
  ((records.map Record.category).dedup).length

/-! ### Category ranking (main.py lines 173-182 and 98-104) -/

/-- The distinct categories of a record set. -/
def distinctCategories (records : List Record) : List String :=
  (records.map Record.category).dedup

/-- Lexicographic comparison of character lists by code point — the string
order Python's `sorted` uses on the group keys. -/
def charsLe : List Char → List Char → Bool
  | [], _ => true
  | _ :: _, [] => false
  | a :: as, b :: bs =>
    Nat.blt a.toNat b.toNat || (a.toNat == b.toNat && charsLe as bs)

/-- Code-point lexicographic order on strings. -/
def strLe (s t : String) : Prop := charsLe s.data t.data = true

/-- Strict code-point lexicographic order on strings. -/
def strLt (s t : String) : Prop := strLe s t ∧ s ≠ t

instance : DecidableRel strLe := fun _ _ => inferInstanceAs (Decidable (_ = true))

instance : IsTotal String strLe := by
  constructor
  have H : ∀ x y : List Char, charsLe x y = true ∨ charsLe y x = true := by
    intro x
    induction x with
    | nil => intro y; exact Or.inl rfl
    | cons a as ih =>
      intro y
      cases y with
      | nil => exact Or.inr rfl
      | cons b bs =>
        simp only [charsLe, Bool.or_eq_true, Bool.and_eq_true, Nat.blt_eq, beq_iff_eq]
        rcases Nat.lt_trichotomy a.toNat b.toNat with h | h | h
        · exact Or.inl (Or.inl h)
        · rcases ih bs with h2 | h2
          · exact Or.inl (Or.inr ⟨h, h2⟩)
          · exact Or.inr (Or.inr ⟨h.symm, h2⟩)
        · exact Or.inr (Or.inl h)
  exact fun s t => H s.data t.data

instance : IsTrans String strLe := by
  constructor
  have H : ∀ x y z : List Char,
      charsLe x y = true → charsLe y z = true → charsLe x z = true := by
    intro x
    induction x with
    | nil => intro y z _ _; rfl
    | cons a as ih =>
      intro y z hxy hyz
      cases y with
      | nil => simp [charsLe] at hxy
      | cons b bs =>
        cases z with
        | nil => simp [charsLe] at hyz
        | cons c cs =>
          simp only [charsLe, Bool.or_eq_true, Bool.and_eq_true, Nat.blt_eq,
            beq_iff_eq] at hxy hyz ⊢
          rcases hxy with h1 | ⟨e1, r1⟩ <;> rcases hyz with h2 | ⟨e2, r2⟩
          · exact Or.inl (by omega)
          · exact Or.inl (by omega)
          · exact Or.inl (by omega)
          · exact Or.inr ⟨by omega, ih bs cs r1 r2⟩
  exact fun x y z hxy hyz => H x.data y.data z.data hxy hyz

/-- `groupby("업종")` group keys: pandas sorts them ascending
(`sort=True` is the default). -/
def sortedCats (records : List Record) : List String :=
  (distinctCategories records).insertionSort strLe

/-- Within one group, `["분기매출액"].sum()`: missing values count as zero
(pandas group sums skip `NaN`). -/
def catSum (records : List Record) (c : String) : Int :=
  ((records.filter (fun r => r.category == c)).filterMap
    Record.quarterly_sales_amount).sum

/-- Model of `groupby("업종", as_index=False)["분기매출액"].sum()`: one
(category, summed sales) pair per distinct category, keys ascending. -/
def groupSums (records : List Record) : List (String × Int) :=
  (sortedCats records).map (fun c => (c, catSum records c))

/-- Comparison used by `sort_values("분기매출액")`. -/
def salesLe (a b : String × Int) : Prop := a.2 ≤ b.2

instance : DecidableRel salesLe := fun a b => inferInstanceAs (Decidable (a.2 ≤ b.2))

instance : IsTotal (String × Int) salesLe := ⟨fun a b => Int.le_total a.2 b.2⟩

instance : IsTrans (String × Int) salesLe := ⟨fun _ _ _ h1 h2 => le_trans h1 h2⟩

/-- Model of `.sort_values("분기매출액", ascending=False)`: pandas computes
an ascending argsort and reverses the indexer, so the embedding is a stable
ascending sort followed by `reverse`. -/
def sortedGroups (records : List Record) : List (String × Int) :=
  ((groupSums records).insertionSort salesLe).reverse

/-- The order every pair of entries of the sorted group list satisfies:
strictly larger sales first, and for equal sales strictly smaller category
key first (the stable ascending sort keeps the key-sorted group order on
ties). -/
def lexLt (a b : String × Int) : Prop :=
  a.2 < b.2 ∨ (a.2 = b.2 ∧ strLt a.1 b.1)

/-- One row of the ranked output: category, summed sales, 1-based rank
(`top10["순위"] = top10.index + 1`). -/
structure RankedEntry where
  category : String
  sales : Int
  rank : Nat
deriving Repr, DecidableEq

/-- Model of `.head(n).reset_index(drop=True)` with the 1-based rank column
added: `top10` is `topCategories filtered_data 10`, `top5_overall` is built
from `topCategories df 5`. -/
def topCategories (records : List Record) (n : Nat) : List RankedEntry :=
  ((sortedGroups records).take n).enum.map (fun p => ⟨p.2.1, p.2.2, p.1 + 1⟩)

/-! ### CSV export (main.py line 132) and re-import -/

/-- One exported CSV row (text cells, one per column). -/
structure CsvRow where
  period_code : String
  district_type : String
  district_code : String
  district_name : String
  category : String
  quarterly_sales_amount : String
  quarterly_transaction_count : String
deriving Repr, DecidableEq

/-- Model of `to_csv` on an optional text cell: missing becomes the empty
cell. -/
def writeCell : Option String → String
  | none => ""
  | some s => s

/-- Model of `to_csv` on a numeric cell: missing becomes the empty cell, a
number becomes its decimal text. -/
def writeNum : Option Int → String
  | none => ""
  | some n => intToStr n

/-- Model of `filtered_data.to_csv(index=False)` on one record. -/
def writeRow (r : Record) : CsvRow where
  period_code := r.period_code
  district_type := r.district_type
  district_code := writeCell r.district_code
  district_name := r.district_name
  category := r.category
  quarterly_sales_amount := writeNum r.quarterly_sales_amount
  quarterly_transaction_count := writeNum r.quarterly_transaction_count

/-- Model of `read_csv` on one exported row: each text cell goes through
the missing-value tokens. -/
def readRow (c : CsvRow) : RawRow where
  period_code := readCell c.period_code
  district_type := readCell c.district_type
  district_code := readCell c.district_code
  district_name := readCell c.district_name
  category := readCell c.category
  quarterly_sales_amount := readCell c.quarterly_sales_amount
  quarterly_transaction_count := readCell c.quarterly_transaction_count

/-- Export a record set to the delimited format. -/
def exportCsv (rs : List Record) : List CsvRow :=
  rs.map writeRow

/-- Re-normalize exported data with the identity rename map: read each cell
back and run `load_data` on the result. -/
def reimport (rows : List CsvRow) : List Record :=
  loadData (rows.map readRow)

/-- A text value that survives the export/re-import cycle: it carries no
surrounding whitespace and is not mistaken for a missing-value token
(except "nan", which maps to missing and back to "nan"). -/
def goodStrB (s : String) : Bool :=
  (pyStrip s == s) && (!(naStrings.contains s) || (s == "nan"))

/-- An untouched optional cell that survives the cycle: absent, or present
and not a missing-value token. -/
def goodCodeB : Option String → Bool
  | none => true
  | some s => !(naStrings.contains s)

/-- A record all of whose text fields survive the export/re-import cycle. -/
def goodRecordB (r : Record) : Bool :=
  goodStrB r.period_code && goodStrB r.district_type && goodCodeB r.district_code &&
    goodStrB r.district_name && goodStrB r.category

/-! ### Sample rows used by witnesses and counterexamples -/

/-- A raw row with whitespace around the period code, a missing district
type, a missing district name, and an unparseable sales cell. -/
def rawSample : RawRow :=
  ⟨some " 20231 ", none, none, none, some "커피전문점", some "12x", some "5"⟩

/-- A well-formed record, as `load_data` would produce it. -/
def recSample : Record :=
  ⟨"20231", "골목상권", none, "역삼동", "한식음식점", some 100, some 7⟩

/-- A record whose category is the literal text "NA" — a value `read_csv`
treats as missing. -/
def recNA : Record :=
  ⟨"20231", "골목상권", none, "역삼동", "NA", some 10, some 1⟩

/-- Two records with distinct categories, equal summed sales, whose
first-encountered order ("a" before "b") is the opposite of the order the
ranking produces. -/
def tieRecords : List Record :=
  [⟨"20231", "골목상권", none, "역삼동", "a", some 10, some 1⟩,
   ⟨"20231", "골목상권", none, "역삼동", "b", some 10, some 1⟩]

/-! ### The claims under test, stated exactly as written -/

/-- Claim C2 as stated: with the sentinel selected no period filtering
happens, and otherwise exactly the rows whose period code is in the
selected set are kept — including for the empty selection. -/
def claimC2 : Prop :=
  ∀ (records : List Record) (qsel : List String),
    (q_all_label ∈ qsel → filteredData records qsel [] [] = records) ∧
    (q_all_label ∉ qsel →
      filteredData records qsel [] [] =
        records.filter (fun r => qsel.contains r.period_code))

/-- Claim C4 as stated: entries with equal summed sales appear in the
ranked output in the first-encountered order of their categories in the
input record list. -/
def claimC4 : Prop :=
  ∀ (records : List Record) (n : Nat),
    (topCategories records n).Pairwise
      (fun e1 e2 => e1.sales = e2.sales →
        (records.map Record.category).indexOf e1.category ≤
          (records.map Record.category).indexOf e2.category)

/-- Claim C6 as stated: the distinct counts range over the non-missing raw
identifying values, so a row whose raw identifying field is missing
contributes nothing. -/
def claimC6 : Prop :=
  ∀ rows : List RawRow,
    n_areas (loadData rows) =
        ((rows.filterMap RawRow.district_name).map pyStrip).dedup.length ∧
    n_cats (loadData rows) =
        ((rows.filterMap RawRow.category).map pyStrip).dedup.length

/-- Claim C8 as stated: exporting any record set and re-normalizing the
export reproduces it exactly. -/
def claimC8 : Prop :=
  ∀ rs : List Record, reimport (exportCsv rs) = rs

/-! ### Lemmas about stripping -/

theorem rstripChars_idem : ∀ l : List Char, rstripChars (rstripChars l) = rstripChars l
  | [] => rfl
  | a :: t => by
    simp only [rstripChars]
    split
    · rfl
    · next h =>
      simp only [rstripChars, rstripChars_idem t]
      simp [h]

theorem rstripChars_cons_shape (a : Char) (t : List Char) :
    rstripChars (a :: t) = [] ∨ ∃ u, rstripChars (a :: t) = a :: u := by
  simp only [rstripChars]
  split
  · exact Or.inl rfl
  · exact Or.inr ⟨_, rfl⟩

theorem dropWhile_head_not (p : Char → Bool) :
    ∀ (l : List Char) (a : Char) (t : List Char), l.dropWhile p = a :: t → p a = false
  | [], _, _, h => by simp at h
  | b :: u, a, t, h => by
    rw [List.dropWhile_cons] at h
    split at h
    · exact dropWhile_head_not p u a t h
    · next hb =>
      cases h
      simpa using hb

theorem stripChars_idem (l : List Char) : stripChars (stripChars l) = stripChars l := by
  unfold stripChars
  have hd : (rstripChars (l.dropWhile Char.isWhitespace)).dropWhile Char.isWhitespace
      = rstripChars (l.dropWhile Char.isWhitespace) := by
    cases hm : l.dropWhile Char.isWhitespace with
    | nil => simp [rstripChars]
    | cons a t =>
      have ha : a.isWhitespace = false := dropWhile_head_not _ l a t hm
      rcases rstripChars_cons_shape a t with h0 | ⟨u, hu⟩
      · simp [h0]
      · simp [hu, List.dropWhile_cons, ha]
  rw [hd, rstripChars_idem]

theorem pyStrip_idem (s : String) : pyStrip (pyStrip s) = pyStrip s :=
  congrArg String.mk (stripChars_idem s.data)

theorem pyStrip_normStr (c : Option String) : pyStrip (normStr c) = normStr c := by
  cases c with
  | none => decide
  | some s => exact pyStrip_idem s

/-! ### C10 — normalized identifying columns are trimmed strings, raw
missing cells become the literal string "nan" -/

/-- C10: after `load_data`, the four identifying columns of every record
hold strings with no leading or trailing whitespace, and a raw missing cell
becomes the literal string "nan" rather than a missing value. -/
theorem c10_normalized_id_columns (rows : List RawRow) (r : Record)
    (h : r ∈ loadData rows) :
    (pyStrip r.period_code = r.period_code ∧
     pyStrip r.district_type = r.district_type ∧
     pyStrip r.district_name = r.district_name ∧
     pyStrip r.category = r.category) ∧
    (∀ raw : RawRow, raw.district_name = none → (loadRow raw).district_name = "nan") := by
  constructor
  · rcases List.mem_map.mp h with ⟨raw, _, rfl⟩
    exact ⟨pyStrip_normStr _, pyStrip_normStr _, pyStrip_normStr _, pyStrip_normStr _⟩
  · intro raw hraw
    simp [loadRow, hraw, normStr]

/-- Witness for C10 at a concrete raw table. -/
theorem c10_witness :
    pyStrip (loadRow rawSample).period_code = (loadRow rawSample).period_code ∧
    pyStrip (loadRow rawSample).district_type = (loadRow rawSample).district_type ∧
    pyStrip (loadRow rawSample).district_name = (loadRow rawSample).district_name ∧
    pyStrip (loadRow rawSample).category = (loadRow rawSample).category :=
  (c10_normalized_id_columns [rawSample] (loadRow rawSample)
    (by simp [loadData])).1

/-! ### C7 — numeric coercion stores null on parse failure, never errors -/

/-- C7: `load_data` is total — it maps every raw row to a record, so no
individual cell value can make it raise — and on every row the stored
numeric values are exactly the coercions of the raw cells, where a cell
that fails numeric parsing is stored as missing. -/
theorem c7_coerce_failures_to_null (rows : List RawRow) :
    (loadData rows).map
        (fun r => (r.quarterly_sales_amount, r.quarterly_transaction_count)) =
      rows.map
        (fun r => (parseNum r.quarterly_sales_amount,
                   parseNum r.quarterly_transaction_count)) ∧
    (∀ s : String, cellToInt s = none → parseNum (some s) = none) := by
  constructor
  · simp [loadData, loadRow]
  · intro s h
    simpa [parseNum] using h

/-- Witness for C7: the unparseable cell "12x" of `rawSample` is stored as
missing. -/
theorem c7_witness : parseNum (some "12x") = none :=
  (c7_coerce_failures_to_null [rawSample]).2 "12x" (by decide)

/-! ### C5 — null-safe summation -/

theorem sum_filterMap_eq_sum_getD (f : Record → Option Int) :
    ∀ l : List Record, (l.filterMap f).sum = (l.map (fun r => (f r).getD 0)).sum
  | [] => rfl
  | r :: t => by
    cases h : f r <;>
      simp [List.filterMap_cons, h, sum_filterMap_eq_sum_getD f t]

/-- C5: the summary sums equal the sums obtained by first replacing every
missing value with 0; missing values never make the total missing (the
total is a plain integer for every record set). -/
theorem c5_null_safe_summation (records : List Record) :
    total_sales records =
        (records.map (fun r => r.quarterly_sales_amount.getD 0)).sum ∧
    total_cnt records =
        (records.map (fun r => r.quarterly_transaction_count.getD 0)).sum :=
  ⟨sum_filterMap_eq_sum_getD _ records, sum_filterMap_eq_sum_getD _ records⟩

/-! ### C9 — empty period selection applies no period filtering -/

/-- C9: with an empty period selection the filter engine behaves exactly as
with the "all" sentinel selected: no period filtering at all. -/
theorem c9_empty_period_selection_is_all (records : List Record)
    (selected_types selected_biz : List String) :
    filteredData records [] selected_types selected_biz =
        filteredData records [q_all_label] selected_types selected_biz ∧
    filteredData records [] [] [] = records := by
  constructor
  · simp [filteredData]
  · simp [filteredData]

/-! ### C2 — the period predicate -/

/-- C2 counterexample: with the empty (sentinel-free) selection the code
keeps every row, while the claim demands that only rows with period code in
the empty set — i.e. no rows — be kept. -/
theorem c2_counterexample : ¬ claimC2 := by
  intro h
  have h2 := (h [recSample] []).2 (by simp)
  exact absurd h2 (by decide)

/-- C2 amended: the sentinel case also covers the empty selection — if the
selection contains the sentinel or is empty, no period filtering is
applied; otherwise exactly the member rows are kept. -/
theorem c2_amended_period_predicate (records : List Record) (qsel : List String) :
    (q_all_label ∈ qsel ∨ qsel = [] → filteredData records qsel [] [] = records) ∧
    (q_all_label ∉ qsel → qsel ≠ [] →
      filteredData records qsel [] [] =
        records.filter (fun r => qsel.contains r.period_code)) := by
  constructor
  · rintro (h | rfl)
    · simp [filteredData, h]
    · simp [filteredData]
  · intro h hne
    have he : qsel.isEmpty = false := by
      cases qsel with
      | nil => exact absurd rfl hne
      | cons a t => rfl
    simp [filteredData, he, h]

/-- Witness for C2 (amended) at a concrete input: the empty selection keeps
the row. -/
theorem c2_amended_witness : filteredData [recSample] [] [] [] = [recSample] :=
  (c2_amended_period_predicate [recSample] []).1 (Or.inr rfl)

/-! ### C1 — selecting all observed values of each dimension is a no-op -/

theorem filter_contains_of_all_mem {l : List Record} {sel : List String}
    (f : Record → String) (h : ∀ r ∈ l, f r ∈ sel) :
    l.filter (fun r => sel.contains (f r)) = l :=
  List.filter_eq_self.mpr (fun r hr => by simpa using h r hr)

/-- C1: filtering with the sentinel in the period selection and every
observed district type and category selected returns the record set
unchanged (hence equal as a multiset of rows). -/
theorem c1_full_selection_identity (records : List Record) :
    filteredData records
        (q_all_label :: (records.map Record.period_code).dedup)
        ((records.map Record.district_type).dedup)
        ((records.map Record.category).dedup) = records := by
  have h1 : ((q_all_label :: (records.map Record.period_code).dedup)).contains
      q_all_label = true := by simp
  have h2 : records.filter
      (fun r => ((records.map Record.district_type).dedup).contains r.district_type)
        = records :=
    filter_contains_of_all_mem _ (fun r hr =>
      List.mem_dedup.mpr (List.mem_map_of_mem _ hr))
  have h3 : records.filter
      (fun r => ((records.map Record.category).dedup).contains r.category)
        = records :=
    filter_contains_of_all_mem _ (fun r hr =>
      List.mem_dedup.mpr (List.mem_map_of_mem _ hr))
  simp only [filteredData, h1, if_true]
  split
  · split
    · rfl
    · exact h2
  · split
    · exact h3
    · rw [h2]
      exact h3

/-! ### C6 — distinct counts and missing raw identifying cells -/

/-- C6 counterexample: a row whose raw district name is missing does
contribute to the distinct count — as the literal string "nan" — so the
count is 1 where the claim demands 0. -/
theorem c6_counterexample : ¬ claimC6 := by
  intro h
  exact absurd (h [rawSample]).1 (by decide)

/-- C6 amended: the distinct counts are over the normalized column values,
in which a missing raw cell appears as the literal string "nan" and is
counted like any other value. -/
theorem c6_amended_distinct_counts (rows : List RawRow) :
    n_areas (loadData rows) =
        ((rows.map (fun rr => normStr rr.district_name)).toFinset).card ∧
    n_cats (loadData rows) =
        ((rows.map (fun rr => normStr rr.category)).toFinset).card := by
  have e1 : (loadData rows).map Record.district_name =
      rows.map (fun rr => normStr rr.district_name) := by
    simp only [loadData, List.map_map]
    rfl
  have e2 : (loadData rows).map Record.category =
      rows.map (fun rr => normStr rr.category) := by
    simp only [loadData, List.map_map]
    rfl
  constructor
  · show ((loadData rows).map Record.district_name).dedup.length = _
    rw [e1, List.card_toFinset]
  · show ((loadData rows).map Record.category).dedup.length = _
    rw [e2, List.card_toFinset]

/-! ### C3 — shape of the ranked output -/

theorem sortedGroups_length (records : List Record) :
    (sortedGroups records).length = (distinctCategories records).length := by
  simp [sortedGroups, groupSums, sortedCats, List.length_insertionSort]

theorem topCategories_length (records : List Record) (n : Nat) :
    (topCategories records n).length = min n (distinctCategories records).length := by
  simp [topCategories, sortedGroups_length records]

theorem topCategories_map_sales (records : List Record) (n : Nat) :
    (topCategories records n).map RankedEntry.sales =
      ((sortedGroups records).take n).map Prod.snd := by
  simp only [topCategories, List.map_map]
  have h : (RankedEntry.sales ∘ fun p : Nat × (String × Int) =>
      (⟨p.2.1, p.2.2, p.1 + 1⟩ : RankedEntry)) = Prod.snd ∘ Prod.snd := rfl
  rw [h, ← List.map_map, List.enum_eq_enumFrom, List.enumFrom_map_snd]

theorem sortedGroups_pairwise_ge (records : List Record) :
    (sortedGroups records).Pairwise (fun a b : String × Int => b.2 ≤ a.2) :=
  List.pairwise_reverse.mpr (List.sorted_insertionSort salesLe (groupSums records))

theorem enumFrom_map_rank {α : Type} :
    ∀ (k : Nat) (l : List α),
      (List.enumFrom k l).map (fun p => p.1 + 1) = List.range' (k + 1) l.length
  | _, [] => rfl
  | k, a :: t => by
    rw [List.enumFrom_cons, List.map_cons, List.length_cons, List.range'_succ]
    exact congrArg (List.cons (k + 1)) (enumFrom_map_rank (k + 1) t)

theorem topCategories_map_rank (records : List Record) (n : Nat) :
    (topCategories records n).map RankedEntry.rank =
      List.range' 1 (topCategories records n).length := by
  have h : (RankedEntry.rank ∘ fun p : Nat × (String × Int) =>
      (⟨p.2.1, p.2.2, p.1 + 1⟩ : RankedEntry)) =
        fun p : Nat × (String × Int) => p.1 + 1 := rfl
  have hlen : (topCategories records n).length =
      ((sortedGroups records).take n).length := by
    simp [topCategories]
  rw [hlen]
  simp only [topCategories, List.map_map, h, List.enum_eq_enumFrom]
  exact enumFrom_map_rank 0 _

/-- C3: the ranking has `min n (number of distinct categories)` entries, its
sales column is non-increasing from first to last, and its rank column is
exactly the 1-based positions 1, 2, …. -/
theorem c3_ranking_shape (records : List Record) (n : Nat) :
    (topCategories records n).length = min n (distinctCategories records).length ∧
    List.Sorted (· ≥ ·) ((topCategories records n).map RankedEntry.sales) ∧
    (topCategories records n).map RankedEntry.rank =
      List.range' 1 (topCategories records n).length := by
  refine ⟨topCategories_length records n, ?_, topCategories_map_rank records n⟩
  rw [topCategories_map_sales]
  exact List.Pairwise.map _ (fun a b h => h)
    (List.Pairwise.sublist (List.take_sublist _ _) (sortedGroups_pairwise_ge records))

/-! ### C4 — tie-breaking among equal summed sales -/

theorem pairwise_lexLt_orderedInsert (x : String × Int) :
    ∀ l : List (String × Int), l.Pairwise lexLt → (∀ y ∈ l, strLt x.1 y.1) →
      (l.orderedInsert salesLe x).Pairwise lexLt
  | [], _, _ => List.pairwise_singleton _ _
  | y :: ys, hl, hx => by
    by_cases hxy : salesLe x y
    · rw [List.orderedInsert_of_le salesLe ys hxy, List.pairwise_cons]
      refine ⟨?_, hl⟩
      intro z hz
      rcases List.mem_cons.mp hz with rfl | hz2
      · rcases lt_or_eq_of_le (hxy : x.2 ≤ z.2) with h | h
        · exact Or.inl h
        · exact Or.inr ⟨h, hx z (List.mem_cons_self z ys)⟩
      · have hyz := List.rel_of_pairwise_cons hl hz2
        have hy2z2 : y.2 ≤ z.2 := by
          rcases hyz with h | ⟨h, _⟩
          · exact le_of_lt h
          · exact le_of_eq h
        rcases lt_or_eq_of_le (le_trans (hxy : x.2 ≤ y.2) hy2z2) with h | h
        · exact Or.inl h
        · exact Or.inr ⟨h, hx z (List.mem_cons_of_mem y hz2)⟩
    · simp only [List.orderedInsert, if_neg hxy]
      rw [List.pairwise_cons]
      constructor
      · intro z hz
        rcases (List.mem_orderedInsert salesLe).mp hz with hzx | hz2
        · rw [hzx]
          exact Or.inl (not_le.mp (hxy : ¬ x.2 ≤ y.2))
        · exact List.rel_of_pairwise_cons hl hz2
      · exact pairwise_lexLt_orderedInsert x ys (List.Pairwise.of_cons hl)
          (fun y2 hy2 => hx y2 (List.mem_cons_of_mem y hy2))

theorem pairwise_lexLt_insertionSort :
    ∀ l : List (String × Int), l.Pairwise (fun a b => strLt a.1 b.1) →
      (l.insertionSort salesLe).Pairwise lexLt
  | [], _ => List.Pairwise.nil
  | a :: l, h => by
    rw [List.insertionSort]
    exact pairwise_lexLt_orderedInsert a _
      (pairwise_lexLt_insertionSort l (List.Pairwise.of_cons h))
      (fun y hy => List.rel_of_pairwise_cons h ((List.mem_insertionSort salesLe).mp hy))

theorem groupSums_pairwise_key (records : List Record) :
    (groupSums records).Pairwise (fun a b => strLt a.1 b.1) := by
  have hsorted : (sortedCats records).Pairwise strLe :=
    List.sorted_insertionSort strLe (distinctCategories records)
  have hnodup : (sortedCats records).Nodup :=
    ((List.perm_insertionSort strLe (distinctCategories records)).nodup_iff).mpr
      (List.nodup_dedup _)
  have hlt : (sortedCats records).Pairwise strLt := hsorted.and hnodup
  exact List.pairwise_map.mpr hlt

theorem sortedGroups_pairwise_lexGt (records : List Record) :
    (sortedGroups records).Pairwise (fun a b => lexLt b a) :=
  List.pairwise_reverse.mpr (pairwise_lexLt_insertionSort _ (groupSums_pairwise_key records))

theorem topCategories_map_pair (records : List Record) (n : Nat) :
    (topCategories records n).map (fun e => (e.category, e.sales)) =
      (sortedGroups records).take n := by
  simp only [topCategories, List.map_map]
  have h : ((fun e : RankedEntry => (e.category, e.sales)) ∘
      fun p : Nat × (String × Int) => (⟨p.2.1, p.2.2, p.1 + 1⟩ : RankedEntry)) =
        Prod.snd := rfl
  rw [h, List.enum_eq_enumFrom, List.enumFrom_map_snd]

/-- C4 counterexample: two categories with equal summed sales, first
encountered as "a" then "b", come out ranked "b" before "a" — the ranked
order does not follow the first-encountered order. -/
theorem c4_counterexample : ¬ claimC4 := by
  intro h
  exact absurd (h tieRecords 10) (by decide)

/-- C4 amended: among entries with equal summed sales the ranked output
orders categories in strictly descending code-point order (the group keys
are sorted ascending and the descending sales sort reverses the list), not
in first-encountered input order. -/
theorem c4_amended_tie_order (records : List Record) (n : Nat) :
    (topCategories records n).Pairwise
      (fun e1 e2 => e1.sales = e2.sales → strLt e2.category e1.category) := by
  have hpair : ((topCategories records n).map
      (fun e => (e.category, e.sales))).Pairwise (fun a b => lexLt b a) := by
    rw [topCategories_map_pair]
    exact List.Pairwise.sublist (List.take_sublist _ _) (sortedGroups_pairwise_lexGt records)
  have h2 := List.pairwise_map.mp hpair
  refine h2.imp ?_
  intro e1 e2 hab heq
  rcases hab with hlt | ⟨_, hstr⟩
  · rw [heq] at hlt
    exact absurd hlt (lt_irrefl _)
  · exact hstr

/-! ### C8 — export/re-import round trip -/

theorem natFromChars_append (l : List Char) (c : Char) :
    natFromChars (l ++ [c]) = natFromChars l * 10 + digitVal c := by
  simp [natFromChars, List.foldl_append]

theorem digitVal_digitChar : ∀ d : Nat, d < 10 → digitVal (Nat.digitChar d) = d := by
  decide

theorem digitChar_isDigit : ∀ d : Nat, d < 10 → (Nat.digitChar d).isDigit = true := by
  decide

theorem ntcAux_correct : ∀ fuel n : Nat, n ≤ fuel → natFromChars (ntcAux fuel n) = n
  | 0, n, h => by
    have h0 : n = 0 := Nat.le_zero.mp h
    subst h0
    rfl
  | fuel + 1, n, h => by
    by_cases h0 : n = 0
    · subst h0
      rfl
    · have hdiv : n / 10 ≤ fuel := by
        have := Nat.div_lt_self (Nat.pos_of_ne_zero h0) (by norm_num : 1 < 10)
        omega
      simp only [ntcAux, if_neg h0]
      rw [natFromChars_append, ntcAux_correct fuel (n / 10) hdiv,
        digitVal_digitChar _ (Nat.mod_lt n (by norm_num))]
      omega

theorem ntcAux_digits : ∀ fuel n : Nat, ∀ c ∈ ntcAux fuel n, c.isDigit = true
  | 0, _, c, h => by simp [ntcAux] at h
  | fuel + 1, n, c, h => by
    by_cases h0 : n = 0
    · subst h0
      simp [ntcAux] at h
    · simp only [ntcAux, if_neg h0, List.mem_append, List.mem_singleton] at h
      rcases h with h | rfl
      · exact ntcAux_digits fuel (n / 10) c h
      · exact digitChar_isDigit _ (Nat.mod_lt n (by norm_num))

theorem natToStr_ne_nil (n : Nat) : (natToStr n).data ≠ [] := by
  unfold natToStr
  split
  · decide
  · next h =>
    show ntcAux n n ≠ []
    cases n with
    | zero => exact absurd rfl h
    | succ m => simp [ntcAux]

theorem natToStr_digits (n : Nat) : ∀ c ∈ (natToStr n).data, c.isDigit = true := by
  unfold natToStr
  split
  · decide
  · exact ntcAux_digits n n

theorem natFromChars_natToStr (n : Nat) : natFromChars (natToStr n).data = n := by
  unfold natToStr
  split
  · next h =>
    subst h
    decide
  · exact ntcAux_correct n n (Nat.le_refl n)

theorem cellToInt_natToStr (n : Nat) : cellToInt (natToStr n) = some (n : Int) := by
  obtain ⟨c, cs, hdata⟩ : ∃ c cs, (natToStr n).data = c :: cs := by
    cases hd : (natToStr n).data with
    | nil => exact absurd hd (natToStr_ne_nil n)
    | cons c cs => exact ⟨c, cs, rfl⟩
  have hdig := natToStr_digits n
  have hc : c.isDigit = true := hdig c (by rw [hdata]; exact List.mem_cons_self c cs)
  have hnm : ¬ (c = '-') := by
    intro hcm
    rw [hcm] at hc
    exact absurd hc (by decide)
  have hall : (c :: cs).all Char.isDigit = true := by
    rw [← hdata, List.all_eq_true]
    exact hdig
  simp only [cellToInt, hdata]
  rw [if_neg hnm, if_pos hall, ← hdata, natFromChars_natToStr]

theorem cellToInt_intToStr (i : Int) : cellToInt (intToStr i) = some i := by
  unfold intToStr
  split
  · next hneg =>
    have hdata : ("-" ++ natToStr i.natAbs).data = '-' :: (natToStr i.natAbs).data := rfl
    have hne : ((natToStr i.natAbs).data).isEmpty = false := by
      cases hd : (natToStr i.natAbs).data with
      | nil => exact absurd hd (natToStr_ne_nil _)
      | cons c cs => rfl
    have hall : ((natToStr i.natAbs).data).all Char.isDigit = true := by
      rw [List.all_eq_true]
      exact natToStr_digits _
    simp only [cellToInt, hdata]
    rw [if_pos trivial, if_pos (by simp [hne, hall]), natFromChars_natToStr]
    have hi : (-(i.natAbs : Int)) = i := by omega
    rw [hi]
  · next hpos =>
    rw [cellToInt_natToStr]
    have hi : ((i.toNat : Nat) : Int) = i := Int.toNat_of_nonneg (not_lt.mp hpos)
    rw [hi]

theorem cellToInt_naStrings : ∀ s ∈ naStrings, cellToInt s = none := by
  decide

theorem intToStr_not_na (i : Int) : intToStr i ∉ naStrings := by
  intro h
  have h1 := cellToInt_naStrings _ h
  rw [cellToInt_intToStr] at h1
  cases h1

theorem roundTrip_num (o : Option Int) : parseNum (readCell (writeNum o)) = o := by
  cases o with
  | none => decide
  | some n =>
    show parseNum (readCell (intToStr n)) = some n
    simp only [readCell, if_neg (intToStr_not_na n)]
    exact cellToInt_intToStr n

theorem goodStr_roundTrip (s : String) (h : goodStrB s = true) :
    normStr (readCell s) = s := by
  simp only [goodStrB, Bool.and_eq_true] at h
  obtain ⟨hb1, h2⟩ := h
  have h1 : pyStrip s = s := eq_of_beq hb1
  by_cases hna : s ∈ naStrings
  · have hcontains : naStrings.contains s = true := by simpa using hna
    have hs : s = "nan" := by
      rw [hcontains] at h2
      simpa using h2
    subst hs
    decide
  · have hr : readCell s = some s := by simp [readCell, hna]
    rw [hr]
    exact h1

theorem goodCode_roundTrip (o : Option String) (h : goodCodeB o = true) :
    readCell (writeCell o) = o := by
  cases o with
  | none => decide
  | some s =>
    have hna : s ∉ naStrings := by simpa [goodCodeB] using h
    simp [writeCell, readCell, hna]

theorem roundTrip_record (r : Record) (h : goodRecordB r = true) :
    loadRow (readRow (writeRow r)) = r := by
  obtain ⟨p, t, c, d, cat, s, tx⟩ := r
  simp only [goodRecordB, Bool.and_eq_true] at h
  obtain ⟨⟨⟨⟨h1, h2⟩, h3⟩, h4⟩, h5⟩ := h
  simp only [loadRow, readRow, writeRow, Record.mk.injEq]
  exact ⟨goodStr_roundTrip _ h1, goodStr_roundTrip _ h2, goodCode_roundTrip _ h3,
    goodStr_roundTrip _ h4, goodStr_roundTrip _ h5, roundTrip_num s, roundTrip_num tx⟩

/-- C8 counterexample: a record whose category is the text "NA" does not
survive the cycle — the re-read turns "NA" into missing and the normalizer
renders it as "nan". -/
theorem c8_counterexample : ¬ claimC8 := by
  intro h
  exact absurd (h [recNA]) (by decide)

/-- C8 amended: the round trip reproduces the record set — same field
values, same row order — provided no text field value is mistaken by the
reader for a missing-value token (other than "nan" itself) and none carries
surrounding whitespace. -/
theorem c8_amended_roundtrip :
    ∀ rs : List Record, (∀ r ∈ rs, goodRecordB r = true) →
      reimport (exportCsv rs) = rs
  | [], _ => rfl
  | r :: t, h => by
    have hr := roundTrip_record r (h r (List.mem_cons_self r t))
    have ht := c8_amended_roundtrip t (fun x hx => h x (List.mem_cons_of_mem r hx))
    show loadRow (readRow (writeRow r)) :: reimport (exportCsv t) = r :: t
    rw [hr, ht]

/-- Witness for C8 (amended) at a concrete filtered record set. -/
theorem c8_amended_witness : reimport (exportCsv [recSample]) = [recSample] :=
  c8_amended_roundtrip [recSample] (by decide)
